import Mathlib

/-!
Verification of the Agent Lighthouse backend core: trace/span aggregation,
span tree reconstruction, agent state mutation and snapshots, execution
control, event publication and WebSocket broadcast fan-out.

The definitions below are shallow embeddings of the Python source files
`backend/models/trace.py`, `backend/models/state.py`,
`backend/services/redis_service.py`, `backend/services/connection_manager.py`,
`backend/routers/traces.py` and `backend/routers/state.py`.
Python dict values are embedded as the inductive `PyVal`; Python dicts are
insertion-ordered association lists, matching CPython semantics. Timestamps
are modelled as natural numbers, monetary cost as rationals, Python ints as
integers. Fallible operations return a Bool or Option paired with the new
state, mirroring the Python return conventions.
-/

namespace Lighthouse

/-- A JSON-like Python value: None, bool, int, str, list or dict.
Dicts are insertion-ordered association lists, as in CPython. -/
inductive PyVal where
  | vnull : PyVal
  | vbool : Bool → PyVal
  | vint : Int → PyVal
  | vstr : String → PyVal
  | vlist : List PyVal → PyVal
  | vdict : List (String × PyVal) → PyVal

/-- A Python dict with string keys: an insertion-ordered association list. -/
abbrev PyDict := List (String × PyVal)

mutual

def PyVal.beq : PyVal → PyVal → Bool
  | .vnull, .vnull => true
  | .vbool a, .vbool b => a == b
  | .vint a, .vint b => a == b
  | .vstr a, .vstr b => a == b
  | .vlist a, .vlist b => PyVal.beqList a b
  | .vdict a, .vdict b => PyVal.beqEntries a b
  | _, _ => false

def PyVal.beqList : List PyVal → List PyVal → Bool
  | [], [] => true
  | a :: as, b :: bs => PyVal.beq a b && PyVal.beqList as bs
  | _, _ => false

def PyVal.beqEntries : List (String × PyVal) → List (String × PyVal) → Bool
  | [], [] => true
  | (k, a) :: as, (l, b) :: bs => k == l && PyVal.beq a b && PyVal.beqEntries as bs
  | _, _ => false

end

mutual

theorem PyVal.beq_eq : ∀ a b : PyVal, PyVal.beq a b = true ↔ a = b
  | .vnull, .vnull => by simp [PyVal.beq]
  | .vbool a, .vbool b => by simp [PyVal.beq]
  | .vint a, .vint b => by simp [PyVal.beq]
  | .vstr a, .vstr b => by simp [PyVal.beq]
  | .vlist a, .vlist b => by
      simp only [PyVal.beq, PyVal.vlist.injEq]
      exact PyVal.beqList_eq a b
  | .vdict a, .vdict b => by
      simp only [PyVal.beq, PyVal.vdict.injEq]
      exact PyVal.beqEntries_eq a b
  | .vnull, .vbool _ => by simp [PyVal.beq]
  | .vnull, .vint _ => by simp [PyVal.beq]
  | .vnull, .vstr _ => by simp [PyVal.beq]
  | .vnull, .vlist _ => by simp [PyVal.beq]
  | .vnull, .vdict _ => by simp [PyVal.beq]
  | .vbool _, .vnull => by simp [PyVal.beq]
  | .vbool _, .vint _ => by simp [PyVal.beq]
  | .vbool _, .vstr _ => by simp [PyVal.beq]
  | .vbool _, .vlist _ => by simp [PyVal.beq]
  | .vbool _, .vdict _ => by simp [PyVal.beq]
  | .vint _, .vnull => by simp [PyVal.beq]
  | .vint _, .vbool _ => by simp [PyVal.beq]
  | .vint _, .vstr _ => by simp [PyVal.beq]
  | .vint _, .vlist _ => by simp [PyVal.beq]
  | .vint _, .vdict _ => by simp [PyVal.beq]
  | .vstr _, .vnull => by simp [PyVal.beq]
  | .vstr _, .vbool _ => by simp [PyVal.beq]
  | .vstr _, .vint _ => by simp [PyVal.beq]
  | .vstr _, .vlist _ => by simp [PyVal.beq]
  | .vstr _, .vdict _ => by simp [PyVal.beq]
  | .vlist _, .vnull => by simp [PyVal.beq]
  | .vlist _, .vbool _ => by simp [PyVal.beq]
  | .vlist _, .vint _ => by simp [PyVal.beq]
  | .vlist _, .vstr _ => by simp [PyVal.beq]
  | .vlist _, .vdict _ => by simp [PyVal.beq]
  | .vdict _, .vnull => by simp [PyVal.beq]
  | .vdict _, .vbool _ => by simp [PyVal.beq]
  | .vdict _, .vint _ => by simp [PyVal.beq]
  | .vdict _, .vstr _ => by simp [PyVal.beq]
  | .vdict _, .vlist _ => by simp [PyVal.beq]

theorem PyVal.beqList_eq : ∀ a b : List PyVal, PyVal.beqList a b = true ↔ a = b
  | [], [] => by simp [PyVal.beqList]
  | [], _ :: _ => by simp [PyVal.beqList]
  | _ :: _, [] => by simp [PyVal.beqList]
  | a :: as, b :: bs => by
      simp only [PyVal.beqList, Bool.and_eq_true, List.cons.injEq]
      rw [PyVal.beq_eq a b, PyVal.beqList_eq as bs]

theorem PyVal.beqEntries_eq :
    ∀ a b : List (String × PyVal), PyVal.beqEntries a b = true ↔ a = b
  | [], [] => by simp [PyVal.beqEntries]
  | [], _ :: _ => by simp [PyVal.beqEntries]
  | _ :: _, [] => by simp [PyVal.beqEntries]
  | (k, a) :: as, (l, b) :: bs => by
      simp only [PyVal.beqEntries, Bool.and_eq_true, List.cons.injEq, Prod.mk.injEq,
        beq_iff_eq]
      rw [PyVal.beq_eq a b, PyVal.beqEntries_eq as bs]

end

instance : DecidableEq PyVal := fun a b =>
  decidable_of_iff (PyVal.beq a b = true) (PyVal.beq_eq a b)

/-- Python dict read `d.get(k)` / `d[k]` lookup: first (only) entry with key `k`. -/
def dictGet : PyDict → String → Option PyVal
  | [], _ => none
  | (k, v) :: rest, key => if k = key then some v else dictGet rest key

/-- Python dict write `d[k] = v`: overwrite in place keeping insertion order,
append at the end if the key is new. -/
def dictSet : PyDict → String → PyVal → PyDict
  | [], key, v => [(key, v)]
  | (k, w) :: rest, key, v =>
      if k = key then (k, v) :: rest else (k, w) :: dictSet rest key v

/-- `path.split(".")` for a Python string: split on every dot,
keeping empty segments. -/
def splitDot (s : String) : List String :=
  go s.data []
where
  go : List Char → List Char → List String
    | [], acc => [String.mk acc.reverse]
    | c :: cs, acc =>
        if c = '.' then String.mk acc.reverse :: go cs []
        else go cs (c :: acc)

/-- The nested-key walk and terminal write of `AgentState.modify_state`
(`backend/models/state.py`): for every non-terminal key, a missing key is
created as an empty dict and a non-dict value aborts with failure; the
terminal key is assigned unconditionally. The returned dict reflects all
in-place mutations performed before a failure (as Python leaves them),
and the Bool is the return value of the walk. -/
def setPath : PyDict → List String → PyVal → Bool × PyDict
  | d, [], _ => (false, d)
  | d, [last], v => (true, dictSet d last v)
  | d, k :: k2 :: rest, v =>
      match dictGet d k with
      | none =>
          let r := setPath [] (k2 :: rest) v
          (r.1, dictSet d k (.vdict r.2))
      | some (.vdict sub) =>
          let r := setPath sub (k2 :: rest) v
          (r.1, dictSet d k (.vdict r.2))
      | some _ => (false, d)

/-- Formalization of the failure condition the specification states for
`modifyPath`: some non-terminal segment of the key path already holds a
non-map value (missing keys never block, they are created as maps). -/
def pathBlocked : PyDict → List String → Bool
  | _, [] => false
  | _, [_] => false
  | d, k :: k2 :: rest =>
      match dictGet d k with
      | none => false
      | some (.vdict sub) => pathBlocked sub (k2 :: rest)
      | some _ => true

/-- Read a value at a nested key path (all but the last segment must be dicts). -/
def getPath : PyDict → List String → Option PyVal
  | _, [] => none
  | d, [k] => dictGet d k
  | d, k :: k2 :: rest =>
      match dictGet d k with
      | some (.vdict sub) => getPath sub (k2 :: rest)
      | _ => none

/-- `SpanKind` from `backend/models/trace.py`. -/
inductive SpanKind where
  | agent | tool | llm | chain | retriever | internal
deriving DecidableEq

/-- `SpanStatus` from `backend/models/trace.py`. -/
inductive SpanStatus where
  | running | success | error | cancelled
deriving DecidableEq

/-- `Span` from `backend/models/trace.py`. Timestamps are naturals, the
float fields `duration_ms` and `cost_usd` are rationals, ints are integers. -/
structure Span where
  span_id : String
  parent_span_id : Option String := none
  trace_id : String
  name : String
  kind : SpanKind
  status : SpanStatus := .running
  start_time : Nat
  end_time : Option Nat := none
  duration_ms : Option ℚ := none
  agent_id : Option String := none
  agent_name : Option String := none
  input_data : Option PyDict := none
  output_data : Option PyDict := none
  prompt_tokens : Int := 0
  completion_tokens : Int := 0
  total_tokens : Int := 0
  cost_usd : ℚ := 0
  error_message : Option String := none
  error_type : Option String := none
  attributes : PyDict := []
deriving DecidableEq

/-- `Span.complete` from `backend/models/trace.py`: sets `end_time` to now and
the given status; stores `output` when it is truthy (a non-empty dict); and,
since `start_time` and the just-assigned `end_time` are always truthy
datetimes, always derives `duration_ms` from the two timestamps. -/
def Span.complete (s : Span) (status : SpanStatus) (output : Option PyDict)
    (now : Nat) : Span :=
  let s := { s with end_time := some now, status := status }
  let s := match output with
    | some d => if d = [] then s else { s with output_data := some d }
    | none => s
  { s with duration_ms := some (((now : ℚ) - (s.start_time : ℚ)) * 1000) }

/-- `UpdateSpanRequest` from `backend/routers/traces.py`. -/
structure UpdateSpanRequest where
  status : Option SpanStatus := none
  output_data : Option PyDict := none
  prompt_tokens : Option Int := none
  completion_tokens : Option Int := none
  total_tokens : Option Int := none
  cost_usd : Option ℚ := none
  error_message : Option String := none
  error_type : Option String := none
  duration_ms : Option ℚ := none

/-- The `if request.status:` section of the `update_span` route handler in
`backend/routers/traces.py`: any provided status is copied onto the span
(every enum value is a truthy string), and `Span.complete` is additionally
called exactly when the requested status is `success` or `error`. -/
def applyStatusField (s : Span) (req : UpdateSpanRequest) (now : Nat) : Span :=
  match req.status with
  | some st =>
      let s := { s with status := st }
      if st = .success ∨ st = .error then s.complete st req.output_data now else s
  | none => s

/-- The `if request.output_data:` section of the handler: a truthy
(non-empty) provided dict is copied onto the span. -/
def applyOutputField (s : Span) (req : UpdateSpanRequest) : Span :=
  match req.output_data with
  | some d => if d = [] then s else { s with output_data := some d }
  | none => s

/-- The three `is not None` token sections and the cost section of the
handler. -/
def applyTokenFields (s : Span) (req : UpdateSpanRequest) : Span :=
  let s := match req.prompt_tokens with
    | some n => { s with prompt_tokens := n }
    | none => s
  let s := match req.completion_tokens with
    | some n => { s with completion_tokens := n }
    | none => s
  let s := match req.total_tokens with
    | some n => { s with total_tokens := n }
    | none => s
  match req.cost_usd with
    | some c => { s with cost_usd := c }
    | none => s

/-- The `if request.error_message:` section of the handler: a truthy
(non-empty) message is copied together with the error type. -/
def applyErrorFields (s : Span) (req : UpdateSpanRequest) : Span :=
  match req.error_message with
  | some m =>
      if m = "" then s
      else { s with error_message := some m, error_type := req.error_type }
  | none => s

/-- The `if request.duration_ms is not None:` section of the handler. -/
def applyDurationField (s : Span) (req : UpdateSpanRequest) : Span :=
  match req.duration_ms with
  | some d => { s with duration_ms := some d }
  | none => s

/-- The complete field-update section of the `update_span` route handler in
`backend/routers/traces.py`, in source order. -/
def updateSpanFields (s : Span) (req : UpdateSpanRequest) (now : Nat) : Span :=
  applyDurationField
    (applyErrorFields
      (applyTokenFields
        (applyOutputField (applyStatusField s req now) req) req) req) req

/-- `Trace` from `backend/models/trace.py`. -/
structure Trace where
  trace_id : String
  name : String
  description : Option String := none
  status : SpanStatus := .running
  start_time : Nat
  end_time : Option Nat := none
  duration_ms : Option ℚ := none
  spans : List Span := []
  root_span_id : Option String := none
  total_tokens : Int := 0
  total_cost_usd : ℚ := 0
  agent_count : Int := 0
  tool_calls : Int := 0
  llm_calls : Int := 0
  framework : Option String := none
  metadata : PyDict := []
deriving DecidableEq

/-- Python truthiness of an optional string: `None` and the empty string are
falsy. Used for `if not self.root_span_id` in `Trace.add_span`. -/
def optStrTruthy : Option String → Bool
  | none => false
  | some s => s ≠ ""

/-- `Trace.add_span` from `backend/models/trace.py`: appends the span,
increments the token/cost totals by the new span, bumps the per-kind
counter, and records the root span id on the first parentless span
(when `root_span_id` is still falsy). -/
def Trace.add_span (t : Trace) (s : Span) : Trace :=
  let t := { t with
    spans := t.spans ++ [s],
    total_tokens := t.total_tokens + s.total_tokens,
    total_cost_usd := t.total_cost_usd + s.cost_usd }
  let t := match s.kind with
    | .agent => { t with agent_count := t.agent_count + 1 }
    | .tool => { t with tool_calls := t.tool_calls + 1 }
    | .llm => { t with llm_calls := t.llm_calls + 1 }
    | _ => t
  if !optStrTruthy t.root_span_id ∧ s.parent_span_id = none then
    { t with root_span_id := some s.span_id }
  else t

/-- `Trace.complete` from `backend/models/trace.py`. -/
def Trace.complete (t : Trace) (status : SpanStatus) (now : Nat) : Trace :=
  { t with end_time := some now, status := status,
           duration_ms := some (((now : ℚ) - (t.start_time : ℚ)) * 1000) }

/-- Modelled from the spec: `Trace.recalculate_aggregates` is called by
`RedisService.update_span` (`backend/services/redis_service.py`) and by the
test double in `backend/tests/conftest.py`, but its definition is absent from
`backend/models/trace.py` in this snapshot. Per the specification
(SpanAggregator: recompute trace-level totals — tokens, cost, per-kind
counters — as pure sums over the current span list; the Trace invariant:
aggregate totals are always the sum/count over current spans), it recomputes
`total_tokens` and `total_cost_usd` as sums over `spans` and the per-kind
counters as counts over `spans`. -/
def Trace.recalculate_aggregates (t : Trace) : Trace :=
  { t with
    total_tokens := (t.spans.map Span.total_tokens).sum,
    total_cost_usd := (t.spans.map Span.cost_usd).sum,
    agent_count := ((t.spans.filter fun s => s.kind = .agent).length : Int),
    tool_calls := ((t.spans.filter fun s => s.kind = .tool).length : Int),
    llm_calls := ((t.spans.filter fun s => s.kind = .llm).length : Int) }

/-- The span-replacement loop of `RedisService.update_span`: replace the
first span whose `span_id` matches, or report that none was found. -/
def replaceSpanFirst : List Span → Span → Option (List Span)
  | [], _ => none
  | s :: rest, sp =>
      if s.span_id = sp.span_id then some (sp :: rest)
      else (replaceSpanFirst rest sp).map (s :: ·)

/-- The trace transformation performed by `RedisService.update_span`
(`backend/services/redis_service.py`): locate the span by id (`none` when
absent, the Python function returns False), replace it in place, then call
`recalculate_aggregates` on the whole trace. -/
def updateSpanInTrace (t : Trace) (sp : Span) : Option Trace :=
  (replaceSpanFirst t.spans sp).map fun l =>
    Trace.recalculate_aggregates { t with spans := l }

/-- One span-level operation on a stored trace: `RedisService.add_span`
(which calls `Trace.add_span`) or `RedisService.update_span`. -/
inductive SpanOp where
  | add (s : Span)
  | replace (s : Span)

/-- Apply one span operation; a failed replace (span id not found) leaves
the stored trace unchanged, as `RedisService.update_span` returns False
without saving. -/
def applySpanOp (t : Trace) : SpanOp → Trace
  | .add s => t.add_span s
  | .replace s =>
      match updateSpanInTrace t s with
      | some t2 => t2
      | none => t

/-- Apply a sequence of span operations in order. -/
def applySpanOps (t : Trace) (ops : List SpanOp) : Trace :=
  ops.foldl applySpanOp t

/-- A freshly created trace, as built by the `create_trace` route handler:
only identity and descriptive fields are set, spans and aggregates are at
their defaults. -/
def mkTrace (id name : String) (start : Nat) : Trace :=
  { trace_id := id, name := name, start_time := start }

/-- The hierarchical span tree returned by `Trace.get_span_tree`:
Python returns a `dict` with the span and its children, or an empty dict. -/
inductive SpanTree where
  | empty : SpanTree
  | node : Span → List SpanTree → SpanTree

/-- The `spans_by_id` dict of `Trace.get_span_tree`: a dict comprehension,
so the last span with a given id wins. -/
def findSpanLast (spans : List Span) (sid : String) : Option Span :=
  (spans.filter fun s => s.span_id = sid).getLast?

/-- The children recorded under key `pid` by the index-building loop of
`Trace.get_span_tree`: spans (in list order) whose `parent_span_id` is
truthy (non-None, non-empty) and present among the span ids. -/
def childIds (t : Trace) (pid : String) : List String :=
  ((t.spans.filter fun s =>
      match s.parent_span_id with
      | some p => decide (p ≠ "") && (t.spans.any fun s2 => s2.span_id = p)
          && decide (p = pid)
      | none => false).map Span.span_id)

/-- The recursive `build_tree` of `Trace.get_span_tree`. The fuel argument
makes the recursion structural; `get_span_tree` passes `spans.length + 1`,
which bounds the tree depth for every acyclic parent relation. A span id
without a matching span yields an empty node (unreachable from
`get_span_tree` on traces built through `add_span`). -/
def buildTree (t : Trace) : Nat → String → SpanTree
  | 0, _ => .empty
  | fuel + 1, sid =>
      match findSpanLast t.spans sid with
      | none => .empty
      | some s => .node s ((childIds t sid).map (buildTree t fuel))

/-- `Trace.get_span_tree` from `backend/models/trace.py`: builds the child
index and materializes the tree from `root_span_id`, returning the empty
structure when no root is known (falsy `root_span_id`). -/
def Trace.get_span_tree (t : Trace) : SpanTree :=
  match t.root_span_id with
  | none => .empty
  | some r => if r = "" then .empty else buildTree t (t.spans.length + 1) r

mutual

/-- Does a span id occur anywhere in the produced tree? -/
def treeContains : SpanTree → String → Bool
  | .empty, _ => false
  | .node s cs, x => decide (s.span_id = x) || treeContainsList cs x

def treeContainsList : List SpanTree → String → Bool
  | [], _ => false
  | c :: cs, x => treeContains c x || treeContainsList cs x

end

/-- `ExecutionStatus` from `backend/models/state.py`. -/
inductive ExecutionStatus where
  | running | paused | step | stopped
deriving DecidableEq

/-- `ExecutionControl` from `backend/models/state.py`. -/
structure ExecutionControl where
  trace_id : String
  status : ExecutionStatus := .running
  breakpoint_spans : List String := []
  breakpoint_agents : List String := []
  step_count : Int := 0
  current_step : Int := 0
  paused_at : Option Nat := none
  paused_span_id : Option String := none
  resume_requested : Bool := false
deriving DecidableEq

/-- `ExecutionControl.pause` from `backend/models/state.py`. -/
def ExecutionControl.pause (c : ExecutionControl) (span_id : Option String)
    (now : Nat) : ExecutionControl :=
  { c with status := .paused, paused_at := some now,
           paused_span_id := span_id, resume_requested := false }

/-- `ExecutionControl.resume` from `backend/models/state.py`. -/
def ExecutionControl.resume (c : ExecutionControl) : ExecutionControl :=
  { c with status := .running, resume_requested := true,
           paused_at := none, paused_span_id := none }

/-- `ExecutionControl.step` from `backend/models/state.py`. -/
def ExecutionControl.step (c : ExecutionControl) (count : Int) : ExecutionControl :=
  { c with status := .step, step_count := count, current_step := 0,
           resume_requested := true }

/-- `AgentState` from `backend/models/state.py`: the three mutable containers,
the embedded `ExecutionControl` and `last_updated`. The snapshot list and the
messages list, whose behaviour depends on Python object identity, live in the
heap model `AgentStateH` below. -/
structure AgentState where
  trace_id : String
  memory : PyDict := []
  context : PyDict := []
  «variables» : PyDict := []
  control : ExecutionControl
  last_updated : Nat := 0
deriving DecidableEq

/-- `AgentState.modify_state` from `backend/models/state.py`: split the path
on dots; fewer than two segments or an unknown container name fail
immediately; otherwise walk the remaining segments through the selected
container with `setPath` (creating missing intermediate keys as empty dicts,
failing on a non-dict intermediate) and set the terminal key. The mutated
container is stored back unconditionally (Python mutates it in place);
`last_updated` is refreshed only on the success return path. -/
def AgentState.modify_state (st : AgentState) (path : String) (v : PyVal)
    (now : Nat) : Bool × AgentState :=
  let parts := splitDot path
  if parts.length < 2 then (false, st)
  else
    let container_name := parts.headD ""
    let key_path := parts.tail
    if container_name = "memory" then
      let r := setPath st.memory key_path v
      (r.1, { st with memory := r.2,
                      last_updated := if r.1 then now else st.last_updated })
    else if container_name = "context" then
      let r := setPath st.context key_path v
      (r.1, { st with context := r.2,
                      last_updated := if r.1 then now else st.last_updated })
    else if container_name = "variables" then
      let r := setPath st.«variables» key_path v
      (r.1, { st with «variables» := r.2,
                      last_updated := if r.1 then now else st.last_updated })
    else (false, st)

/-!
Heap model of `AgentState` snapshots.

`take_snapshot` stores `copy.deepcopy` copies of the four live containers in
a `StateSnapshot`, while `restore_snapshot` assigns
`self.memory = snapshot.state_data.get("memory", {})` without copying, so the
live container and the stored snapshot container become the same Python
object. To reason about this aliasing the containers live in an explicit
heap of cells addressed by natural numbers; an `AgentState` and each snapshot
hold cell references. In every state reachable through this API, sharing can
only occur at whole-container granularity (deep copies and freshly
deserialized request payloads never share substructure), so mutating a
nested path inside a container is a functional update of the single cell
both aliases point to — exactly the observable CPython behaviour.
-/

/-- A heap of container cells. Memory/context/variables cells hold dicts,
the messages cell holds a list. -/
abbrev Heap := List (Nat × PyVal)

/-- Read a heap cell. -/
def heapGet (h : Heap) (r : Nat) : Option PyVal :=
  match h with
  | [] => none
  | (a, v) :: rest => if a = r then some v else heapGet rest r

/-- Overwrite a heap cell in place. -/
def heapSet : Heap → Nat → PyVal → Heap
  | [], r, v => [(r, v)]
  | (a, w) :: rest, r, v =>
      if a = r then (a, v) :: rest else (a, w) :: heapSet rest r v

/-- `StateSnapshot` from `backend/models/state.py`, in the heap model: the
`state_data` dict holds references to the four copied container cells. -/
structure StateSnapshot where
  snapshot_id : String
  trace_id : String
  span_id : String
  memory_ref : Nat
  context_ref : Nat
  variables_ref : Nat
  messages_ref : Nat
  description : Option String := none
deriving DecidableEq

/-- `AgentState` in the heap model: the live containers are references into
the heap, snapshots record their own cell references. -/
structure AgentStateH where
  trace_id : String
  memory_ref : Nat
  context_ref : Nat
  variables_ref : Nat
  messages_ref : Nat
  snapshots : List StateSnapshot := []
  heap : Heap
  next_ref : Nat
  last_updated : Nat := 0
deriving DecidableEq

/-- Allocate a fresh cell holding `v`. -/
def AgentStateH.alloc (st : AgentStateH) (v : PyVal) : Nat × AgentStateH :=
  (st.next_ref,
   { st with heap := heapSet st.heap st.next_ref v, next_ref := st.next_ref + 1 })

/-- Build an initial `AgentStateH` with the four containers in fresh cells,
as the `initialize_state` route handler does. -/
def AgentStateH.init (trace_id : String) (memory context vars : PyDict)
    : AgentStateH :=
  { trace_id := trace_id,
    memory_ref := 0, context_ref := 1, variables_ref := 2, messages_ref := 3,
    heap := [(0, .vdict memory), (1, .vdict context), (2, .vdict vars),
             (3, .vlist [])],
    next_ref := 4 }

/-- `AgentState.take_snapshot` from `backend/models/state.py`:
`copy.deepcopy` of each live container — in the heap model, a fresh cell per
container holding the same pure value (deep copies share nothing with the
original) — then append the snapshot. -/
def AgentStateH.take_snapshot (st : AgentStateH) (snapshot_id span_id : String)
    (description : Option String) : StateSnapshot × AgentStateH :=
  let memVal := (heapGet st.heap st.memory_ref).getD (.vdict [])
  let ctxVal := (heapGet st.heap st.context_ref).getD (.vdict [])
  let varVal := (heapGet st.heap st.variables_ref).getD (.vdict [])
  let msgVal := (heapGet st.heap st.messages_ref).getD (.vlist [])
  let (mr, st) := st.alloc memVal
  let (cr, st) := st.alloc ctxVal
  let (vr, st) := st.alloc varVal
  let (gr, st) := st.alloc msgVal
  let snap : StateSnapshot :=
    { snapshot_id := snapshot_id, trace_id := st.trace_id, span_id := span_id,
      memory_ref := mr, context_ref := cr, variables_ref := vr,
      messages_ref := gr, description := description }
  (snap, { st with snapshots := st.snapshots ++ [snap] })

/-- `AgentState.restore_snapshot` from `backend/models/state.py`: find the
snapshot by id; on success assign the stored containers to the live fields
WITHOUT copying (`self.memory = snapshot.state_data.get("memory", {})`), so
live state and snapshot now alias the same cells; refresh `last_updated`. -/
def AgentStateH.restore_snapshot (st : AgentStateH) (snapshot_id : String)
    (now : Nat) : Bool × AgentStateH :=
  match st.snapshots.find? (fun sn => sn.snapshot_id = snapshot_id) with
  | some sn =>
      (true, { st with
        memory_ref := sn.memory_ref, context_ref := sn.context_ref,
        variables_ref := sn.variables_ref, messages_ref := sn.messages_ref,
        last_updated := now })
  | none => (false, st)

/-- `AgentState.modify_state` in the heap model: the same walk as
`AgentState.modify_state`, applied to the dict held in the addressed live
container cell and written back to that same cell (Python mutates the dict
object in place, so every alias of the cell observes the update). -/
def AgentStateH.modify_state (st : AgentStateH) (path : String) (v : PyVal)
    (now : Nat) : Bool × AgentStateH :=
  let parts := splitDot path
  if parts.length < 2 then (false, st)
  else
    let container_name := parts.headD ""
    let key_path := parts.tail
    let refFor : Option Nat :=
      if container_name = "memory" then some st.memory_ref
      else if container_name = "context" then some st.context_ref
      else if container_name = "variables" then some st.variables_ref
      else none
    match refFor with
    | none => (false, st)
    | some r =>
        let d := match heapGet st.heap r with
          | some (.vdict d) => d
          | _ => []
        let w := setPath d key_path v
        (w.1, { st with heap := heapSet st.heap r (.vdict w.2),
                        last_updated := if w.1 then now else st.last_updated })

/-- The `bulk_modify_state` route handler (`backend/routers/state.py`) for a
single provided container: the request payload is a freshly deserialized
dict, so the assignment `state.memory = request.memory` points the live
field at a new object — a fresh cell in the heap model. -/
def AgentStateH.bulk_replace_memory (st : AgentStateH) (d : PyDict) : AgentStateH :=
  let (r, st) := st.alloc (.vdict d)
  { st with memory_ref := r }

/-- The memory container a snapshot currently stores, read through the heap. -/
def snapshotMemory (st : AgentStateH) (sn : StateSnapshot) : Option PyVal :=
  heapGet st.heap sn.memory_ref

/-- The live memory container, read through the heap. -/
def liveMemory (st : AgentStateH) : Option PyVal :=
  heapGet st.heap st.memory_ref

/-- The `.value` string of a `SpanStatus`. -/
def SpanStatus.value : SpanStatus → String
  | .running => "running"
  | .success => "success"
  | .error => "error"
  | .cancelled => "cancelled"

/-- The `.value` string of an `ExecutionStatus`. -/
def ExecutionStatus.value : ExecutionStatus → String
  | .running => "running"
  | .paused => "paused"
  | .step => "step"
  | .stopped => "stopped"

/-- The trace event channel `RedisService.TRACE_CHANNEL`. -/
def TRACE_CHANNEL : String := "lighthouse:events:traces"

/-- The span event channel `RedisService.SPAN_CHANNEL`. -/
def SPAN_CHANNEL : String := "lighthouse:events:spans"

/-- The state event channel `RedisService.STATE_CHANNEL`. -/
def STATE_CHANNEL : String := "lighthouse:events:state"

/-- One message published through `RedisService.publish_event`: a channel
name and the JSON payload (string-valued fields suffice for the events this
service emits). -/
structure PublishedEvent where
  channel : String
  payload : List (String × String)
deriving DecidableEq

/-- The Redis keyspace as the service uses it: trace aggregates by id, the
time-ordered trace id index (the sorted set), and agent states by trace id.
TTLs are not modelled; no claim depends on expiry. -/
structure RedisStore where
  traces : List (String × Trace) := []
  traceIndex : List String := []
  states : List (String × AgentState) := []
deriving DecidableEq

/-- Association-list read, mirroring a Redis GET on a namespaced key. -/
def kvGet {α : Type} : List (String × α) → String → Option α
  | [], _ => none
  | (k, v) :: rest, key => if k = key then some v else kvGet rest key

/-- Association-list write, mirroring a Redis SET on a namespaced key. -/
def kvSet {α : Type} : List (String × α) → String → α → List (String × α)
  | [], key, v => [(key, v)]
  | (k, w) :: rest, key, v =>
      if k = key then (k, v) :: rest else (k, w) :: kvSet rest key v

/-- Association-list delete, mirroring a Redis DEL. -/
def kvDel {α : Type} : List (String × α) → String → List (String × α)
  | [], _ => []
  | (k, w) :: rest, key => if k = key then rest else (k, w) :: kvDel rest key

/-- `RedisService.save_trace`: SET the aggregate, ZADD the id to the time
index, then publish exactly one event on the trace channel whose type is the
caller-supplied `event_type`, defaulting to `trace_updated` when the key
already existed and `trace_created` otherwise. Returns the new store and the
events published by this call. -/
def RedisService.save_trace (st : RedisStore) (t : Trace)
    (event_type : Option String) : RedisStore × List PublishedEvent :=
  let keyExists := (kvGet st.traces t.trace_id).isSome
  let st := { st with
    traces := kvSet st.traces t.trace_id t,
    traceIndex :=
      if t.trace_id ∈ st.traceIndex then st.traceIndex
      else st.traceIndex ++ [t.trace_id] }
  let et := match event_type with
    | some e => e
    | none => if keyExists then "trace_updated" else "trace_created"
  (st,
   [{ channel := TRACE_CHANNEL,
      payload := [("type", et), ("trace_id", t.trace_id), ("name", t.name),
                  ("status", t.status.value)] }])

/-- `RedisService.update_trace`: fails (returns False, publishes nothing)
when the key does not exist; otherwise delegates to `save_trace` with
event type `trace_updated`. -/
def RedisService.update_trace (st : RedisStore) (t : Trace) :
    Bool × RedisStore × List PublishedEvent :=
  if (kvGet st.traces t.trace_id).isSome then
    let r := RedisService.save_trace st t (some "trace_updated")
    (true, r.1, r.2)
  else (false, st, [])

/-- `RedisService.delete_state`: DEL the state key. Publishes nothing. -/
def RedisService.delete_state (st : RedisStore) (trace_id : String) : RedisStore :=
  { st with states := kvDel st.states trace_id }

/-- `RedisService.delete_trace`: DEL the aggregate, ZREM the id from the time
index, cascade to `delete_state`. No `publish_event` call appears in the
body, so the returned event list is empty. -/
def RedisService.delete_trace (st : RedisStore) (trace_id : String) :
    RedisStore × List PublishedEvent :=
  (RedisService.delete_state
     { st with traces := kvDel st.traces trace_id,
               traceIndex := st.traceIndex.erase trace_id } trace_id,
   [])

/-- `RedisService.save_state`: refresh `last_updated`, SET the state key,
publish one `state_updated` event on the state channel. -/
def RedisService.save_state (st : RedisStore) (s : AgentState) (now : Nat) :
    RedisStore × List PublishedEvent :=
  let s := { s with last_updated := now }
  ({ st with states := kvSet st.states s.trace_id s },
   [{ channel := STATE_CHANNEL,
      payload := [("type", "state_updated"), ("trace_id", s.trace_id),
                  ("control_status", s.control.status.value)] }])

/-- An HTTP error raised through `HTTPException`. -/
structure HttpError where
  code : Nat
  detail : String
deriving DecidableEq

/-- The `pause_execution` route handler (`backend/routers/state.py`):
404 when the trace does not exist; otherwise the state is fetched or
implicitly created, its control paused, and the state saved. -/
def Routes.pause_execution (st : RedisStore) (trace_id : String)
    (span_id : Option String) (now : Nat) :
    Except HttpError (RedisStore × List (String × PyVal)) :=
  if (kvGet st.traces trace_id).isNone then
    .error ⟨404, "Trace not found"⟩
  else
    let state := match kvGet st.states trace_id with
      | some s => s
      | none => { trace_id := trace_id, control := { trace_id := trace_id } }
    let state := { state with control := state.control.pause span_id now }
    let r := RedisService.save_state st state now
    .ok (r.1, [("message", .vstr "Execution paused"), ("status", .vstr "paused")])

/-- The `resume_execution` route handler (`backend/routers/state.py`):
404 when no state exists; otherwise resume the control and save. -/
def Routes.resume_execution (st : RedisStore) (trace_id : String) (now : Nat) :
    Except HttpError (RedisStore × List (String × PyVal)) :=
  match kvGet st.states trace_id with
  | none => .error ⟨404, "State not found"⟩
  | some state =>
      let state := { state with control := state.control.resume }
      let r := RedisService.save_state st state now
      .ok (r.1,
        [("message", .vstr "Execution resumed"), ("status", .vstr "running")])

/-- The `step_execution` route handler (`backend/routers/state.py`). -/
def Routes.step_execution (st : RedisStore) (trace_id : String) (count : Int)
    (now : Nat) : Except HttpError (RedisStore × List (String × PyVal)) :=
  match kvGet st.states trace_id with
  | none => .error ⟨404, "State not found"⟩
  | some state =>
      let state := { state with control := state.control.step count }
      let r := RedisService.save_state st state now
      .ok (r.1, [("status", .vstr "step")])

/-- The `get_control_status` route handler (`backend/routers/state.py`):
when no state exists it returns a normal response whose status field is the
string `unknown` — it does not raise 404. Otherwise it reports the control
fields without mutating anything. -/
def Routes.get_control_status (st : RedisStore) (trace_id : String) :
    Except HttpError (List (String × PyVal)) :=
  match kvGet st.states trace_id with
  | none => .ok [("status", .vstr "unknown"), ("trace_id", .vstr trace_id)]
  | some state =>
      .ok [("trace_id", .vstr trace_id),
           ("status", .vstr state.control.status.value),
           ("paused_at", match state.control.paused_at with
             | some n => .vstr (toString n)
             | none => .vnull),
           ("paused_span_id", match state.control.paused_span_id with
             | some s => .vstr s
             | none => .vnull),
           ("resume_requested", .vbool state.control.resume_requested)]

/-- The `set_breakpoints` route handler (`backend/routers/state.py`):
404 when the trace does not exist; otherwise the state is fetched or
implicitly created, both breakpoint lists replaced, and the state saved. -/
def Routes.set_breakpoints (st : RedisStore) (trace_id : String)
    (span_ids agent_ids : List String) (now : Nat) :
    Except HttpError (RedisStore × List (String × PyVal)) :=
  if (kvGet st.traces trace_id).isNone then
    .error ⟨404, "Trace not found"⟩
  else
    let state := match kvGet st.states trace_id with
      | some s => s
      | none => { trace_id := trace_id, control := { trace_id := trace_id } }
    let state := { state with control :=
      { state.control with breakpoint_spans := span_ids,
                           breakpoint_agents := agent_ids } }
    let r := RedisService.save_state st state now
    .ok (r.1, [("message", .vstr "Breakpoints set")])

/-- `ConnectionManager` from `backend/services/connection_manager.py`.
WebSocket connections are identified by naturals; each live Python WebSocket
object is a distinct connection. -/
structure ConnectionManager where
  active_connections : List Nat := []
  trace_subscriptions : List (String × List Nat) := []
deriving DecidableEq

/-- `ConnectionManager.connect` (after the accept succeeds). -/
def ConnectionManager.connect (m : ConnectionManager) (ws : Nat) :
    ConnectionManager :=
  { m with active_connections := m.active_connections ++ [ws] }

/-- `ConnectionManager.disconnect`: remove the connection from the active
list (first occurrence, as `list.remove`), remove it from every trace
subscription list, and drop subscription entries that are (now) empty. -/
def ConnectionManager.disconnect (m : ConnectionManager) (ws : Nat) :
    ConnectionManager :=
  { active_connections := m.active_connections.erase ws,
    trace_subscriptions :=
      ((m.trace_subscriptions.map fun p => (p.1, p.2.erase ws)).filter
        fun p => p.2 ≠ []) }

/-- `ConnectionManager.subscribe_to_trace`: create the entry on first use,
append the connection if not yet subscribed. -/
def ConnectionManager.subscribe_to_trace (m : ConnectionManager) (ws : Nat)
    (trace_id : String) : ConnectionManager :=
  let cur := (kvGet m.trace_subscriptions trace_id).getD []
  let l2 := if ws ∈ cur then cur else cur ++ [ws]
  { m with trace_subscriptions := kvSet m.trace_subscriptions trace_id l2 }

/-- `ConnectionManager.broadcast`: send to every connection in a snapshot of
the active list — the send outcome is the oracle `ok`, and a failed send is
swallowed and only recorded — then disconnect every connection whose send
failed. Returns the manager after cleanup and the connections that received
the message: a failure never aborts delivery to the rest and never raises
out of the broadcast. -/
def ConnectionManager.broadcast (m : ConnectionManager) (ok : Nat → Bool) :
    ConnectionManager × List Nat :=
  let conns := m.active_connections
  let failed := conns.filter fun c => !ok c
  (failed.foldl ConnectionManager.disconnect m, conns.filter ok)

/-- `ConnectionManager.broadcast_to_trace`: nothing happens when the trace
has no subscription entry; otherwise identical to `broadcast` over the
subscriber list. -/
def ConnectionManager.broadcast_to_trace (m : ConnectionManager)
    (trace_id : String) (ok : Nat → Bool) : ConnectionManager × List Nat :=
  match kvGet m.trace_subscriptions trace_id with
  | none => (m, [])
  | some conns =>
      let failed := conns.filter fun c => !ok c
      (failed.foldl ConnectionManager.disconnect m, conns.filter ok)

/-!
Theorems.
-/

/-- C7: on any `ExecutionControl`, `pause()` followed by `resume()` leaves
`status = running`, `resume_requested = true`, `paused_at = None` and
`paused_span_id = None`; `step(3)` sets `status = step`, `step_count = 3`
and `current_step = 0`. -/
theorem pause_resume_step_spec (c : ExecutionControl) (sid : Option String)
    (now : Nat) :
    ((c.pause sid now).resume.status = .running
      ∧ (c.pause sid now).resume.resume_requested = true
      ∧ (c.pause sid now).resume.paused_at = none
      ∧ (c.pause sid now).resume.paused_span_id = none)
    ∧ ((c.step 3).status = .step
      ∧ (c.step 3).step_count = 3
      ∧ (c.step 3).current_step = 0) := by
  exact ⟨⟨rfl, rfl, rfl, rfl⟩, rfl, rfl, rfl⟩

/-- A concrete running tool span used in counterexamples. -/
def cexSpan : Span :=
  { span_id := "s1", trace_id := "t1", name := "call_tool", kind := .tool,
    start_time := 0 }

/-- C2 counterexample: updating a running span to status `cancelled` — a
transition out of `running` — leaves both `end_time` and `duration_ms`
unset, because the route handler only calls `Span.complete` for `success`
and `error`. -/
theorem cancelled_leaves_end_time_unset :
    cexSpan.status = .running
    ∧ (updateSpanFields cexSpan { status := some .cancelled } 5).status
        = .cancelled
    ∧ (updateSpanFields cexSpan { status := some .cancelled } 5).end_time
        = none
    ∧ (updateSpanFields cexSpan { status := some .cancelled } 5).duration_ms
        = none := by
  exact ⟨rfl, rfl, rfl, rfl⟩

theorem applyStatusField_end_time (s : Span) (req : UpdateSpanRequest)
    (now : Nat) :
    (req.status = some .success ∨ req.status = some .error →
        (applyStatusField s req now).end_time = some now
        ∧ (applyStatusField s req now).duration_ms.isSome)
    ∧ (s.end_time.isSome → (applyStatusField s req now).end_time.isSome)
    ∧ (s.duration_ms.isSome → (applyStatusField s req now).duration_ms.isSome) := by
  rcases hst : req.status with _ | st
  · simp [applyStatusField, hst]
  · rcases st <;>
      simp only [applyStatusField, hst, Span.complete] <;>
      rcases hd : req.output_data with _ | d <;>
      simp [hd] <;> split <;> simp

theorem applyOutputField_end_time (s : Span) (req : UpdateSpanRequest) :
    (applyOutputField s req).end_time = s.end_time
    ∧ (applyOutputField s req).duration_ms = s.duration_ms := by
  rcases hd : req.output_data with _ | d <;> simp [applyOutputField, hd]
  split <;> simp

theorem applyTokenFields_end_time (s : Span) (req : UpdateSpanRequest) :
    (applyTokenFields s req).end_time = s.end_time
    ∧ (applyTokenFields s req).duration_ms = s.duration_ms := by
  rcases ha : req.prompt_tokens with _ | a <;>
    rcases hb : req.completion_tokens with _ | b <;>
    rcases hc : req.total_tokens with _ | c <;>
    rcases hd : req.cost_usd with _ | d <;>
    simp [applyTokenFields, ha, hb, hc, hd]

theorem applyErrorFields_end_time (s : Span) (req : UpdateSpanRequest) :
    (applyErrorFields s req).end_time = s.end_time
    ∧ (applyErrorFields s req).duration_ms = s.duration_ms := by
  rcases hm : req.error_message with _ | m <;> simp [applyErrorFields, hm]
  split <;> simp

theorem applyDurationField_end_time (s : Span) (req : UpdateSpanRequest) :
    (applyDurationField s req).end_time = s.end_time
    ∧ (s.duration_ms.isSome → (applyDurationField s req).duration_ms.isSome) := by
  rcases hd : req.duration_ms with _ | d <;> simp [applyDurationField, hd]

/-- C2 amended: a span-update that transitions status to `success` or
`error` sets `end_time` and `duration_ms`; a transition to `cancelled` sets
neither (see the counterexample); and no span-update operation ever un-sets
an already-set `end_time` or `duration_ms`. -/
theorem update_span_end_time_spec (s : Span) (req : UpdateSpanRequest)
    (now : Nat) :
    (req.status = some .success ∨ req.status = some .error →
        (updateSpanFields s req now).end_time.isSome
        ∧ (updateSpanFields s req now).duration_ms.isSome)
    ∧ (s.end_time.isSome → (updateSpanFields s req now).end_time.isSome)
    ∧ (s.duration_ms.isSome → (updateSpanFields s req now).duration_ms.isSome) := by
  have h1 := applyStatusField_end_time s req now
  have h2 := applyOutputField_end_time (applyStatusField s req now) req
  have h3 := applyTokenFields_end_time
    (applyOutputField (applyStatusField s req now) req) req
  have h4 := applyErrorFields_end_time
    (applyTokenFields (applyOutputField (applyStatusField s req now) req) req) req
  have h5 := applyDurationField_end_time
    (applyErrorFields
      (applyTokenFields (applyOutputField (applyStatusField s req now) req) req)
      req) req
  unfold updateSpanFields
  refine ⟨fun h => ?_, fun h => ?_, fun h => ?_⟩
  · have := (h1.1 h)
    refine ⟨?_, h5.2 ?_⟩
    · rw [h5.1, h4.1, h3.1, h2.1, this.1]; rfl
    · rw [h4.2, h3.2, h2.2]; exact this.2
  · rw [h5.1, h4.1, h3.1, h2.1]; exact h1.2.1 h
  · exact h5.2 (by rw [h4.2, h3.2, h2.2]; exact h1.2.2 h)

/-- C2 witness: updating the concrete running span to `success` sets
`end_time` and `duration_ms`. -/
theorem update_span_end_time_spec_witness :
    ((some SpanStatus.success = some SpanStatus.success
        ∨ some SpanStatus.success = some SpanStatus.error)
      ∧ (updateSpanFields cexSpan { status := some .success } 5).end_time.isSome
      ∧ (updateSpanFields cexSpan { status := some .success } 5).duration_ms.isSome) :=
  ⟨Or.inl rfl,
   (update_span_end_time_spec cexSpan { status := some .success } 5).1
     (Or.inl rfl)⟩

theorem kvGet_kvSet_self {α : Type} (l : List (String × α)) (k : String) (v : α) :
    kvGet (kvSet l k v) k = some v := by
  induction l with
  | nil => simp [kvGet, kvSet]
  | cons p rest ih =>
      by_cases h : p.1 = k
      · simp [kvGet, kvSet, h]
      · simpa [kvGet, kvSet, h] using ih

theorem kvGet_mem {α : Type} {l : List (String × α)} {k : String} {v : α}
    (h : kvGet l k = some v) : (k, v) ∈ l := by
  induction l with
  | nil => simp [kvGet] at h
  | cons p rest ih =>
      rcases p with ⟨pk, pv⟩
      by_cases hp : pk = k
      · subst hp
        simp only [kvGet, if_pos rfl] at h
        cases h
        exact List.mem_cons_self _ _
      · simp only [kvGet, if_neg hp] at h
        exact List.mem_cons_of_mem _ (ih h)

/-- A concrete trace and store used in counterexamples and witnesses. -/
def cexTrace : Trace := mkTrace "t1" "demo" 0

/-- A store holding one trace and no agent state. -/
def cexStore : RedisStore := { traces := [("t1", cexTrace)], traceIndex := ["t1"] }

/-- C4 counterexample: deleting an existing trace removes it from the store
but publishes no event at all on the trace channel — the claimed
exactly-one delete event is never emitted (`RedisService.delete_trace`
contains no `publish_event` call). -/
theorem delete_trace_publishes_nothing :
    (RedisService.delete_trace cexStore "t1").1.traces = []
    ∧ (RedisService.delete_trace cexStore "t1").2 = []
    ∧ ¬ ((RedisService.delete_trace cexStore "t1").2.length = 1) := by
  exact ⟨rfl, rfl, by decide⟩

/-- C4 amended: `save_trace` publishes exactly one event, on the trace
channel, carrying `type`, `trace_id`, `name` and `status`; `update_trace`
does the same when the trace key exists and publishes nothing when it does
not; `delete_trace` publishes nothing. -/
theorem trace_event_publication (st : RedisStore) (t : Trace)
    (et : Option String) (tid : String) :
    (∃ ty, (RedisService.save_trace st t et).2 =
      [{ channel := TRACE_CHANNEL,
         payload := [("type", ty), ("trace_id", t.trace_id), ("name", t.name),
                     ("status", t.status.value)] }])
    ∧ ((kvGet st.traces t.trace_id).isSome →
        (RedisService.update_trace st t).2.2 =
          (RedisService.save_trace st t (some "trace_updated")).2)
    ∧ ((kvGet st.traces t.trace_id).isNone →
        (RedisService.update_trace st t).2.2 = [])
    ∧ (RedisService.delete_trace st tid).2 = [] := by
  refine ⟨?_, fun h => ?_, fun h => ?_, rfl⟩
  · rcases et with _ | e
    · by_cases hk : (kvGet st.traces t.trace_id).isSome
      · exact ⟨"trace_updated", by simp [RedisService.save_trace, hk]⟩
      · exact ⟨"trace_created", by simp [RedisService.save_trace, hk]⟩
    · exact ⟨e, rfl⟩
  · simp only [RedisService.update_trace, if_pos h]
  · simp only [RedisService.update_trace, Option.isNone_iff_eq_none.mp h,
      Option.isSome_none, Bool.false_eq_true, if_false]

/-- C4 witness for the hypothesised conjuncts: on the concrete store the
existing-key update publishes the single save event, and on the empty store
it publishes nothing. -/
theorem trace_event_publication_witness :
    ((RedisService.update_trace cexStore cexTrace).2.2 =
      (RedisService.save_trace cexStore cexTrace (some "trace_updated")).2)
    ∧ ((RedisService.update_trace { traces := [] } cexTrace).2.2 = []) :=
  ⟨(trace_event_publication cexStore cexTrace none "t1").2.1 (by decide),
   (trace_event_publication { traces := [] } cexTrace none "t1").2.2.1 (by decide)⟩

/-- C5 counterexample: reading control status for a trace with no
`AgentState`/`ExecutionControl` does not signal NotFound — the handler
answers 200 with a payload whose status field is the string `unknown`. -/
theorem get_control_status_returns_unknown :
    Routes.get_control_status cexStore "t1" =
      .ok [("status", .vstr "unknown"), ("trace_id", .vstr "t1")] := by
  rfl

/-- C5 amended: when no `AgentState` exists, `resume` signals NotFound but
the control read returns a normal `unknown`-status response; `pause` and
`set-breakpoints` signal NotFound when the trace does not exist, and when it
does they implicitly create and persist a control with the requested pause
or breakpoint data. -/
theorem control_notfound_spec (st : RedisStore) (tid : String)
    (sid : Option String) (now : Nat) (spans agents : List String)
    (hwf : ∀ p ∈ st.states, AgentState.trace_id p.2 = p.1) :
    (kvGet st.states tid = none →
      Routes.resume_execution st tid now = .error ⟨404, "State not found"⟩
      ∧ Routes.get_control_status st tid =
          .ok [("status", .vstr "unknown"), ("trace_id", .vstr tid)])
    ∧ ((kvGet st.traces tid).isNone →
      Routes.pause_execution st tid sid now = .error ⟨404, "Trace not found"⟩
      ∧ Routes.set_breakpoints st tid spans agents now =
          .error ⟨404, "Trace not found"⟩)
    ∧ ((kvGet st.traces tid).isSome →
      (∃ r, Routes.pause_execution st tid sid now = .ok r
        ∧ ∃ s, kvGet r.1.states tid = some s ∧ s.control.status = .paused
          ∧ s.control.paused_span_id = sid ∧ s.control.paused_at = some now)
      ∧ (∃ r, Routes.set_breakpoints st tid spans agents now = .ok r
        ∧ ∃ s, kvGet r.1.states tid = some s
          ∧ s.control.breakpoint_spans = spans
          ∧ s.control.breakpoint_agents = agents)) := by
  refine ⟨fun h => ?_, fun h => ?_, fun h => ⟨?_, ?_⟩⟩
  · exact ⟨by simp [Routes.resume_execution, h],
           by simp [Routes.get_control_status, h]⟩
  · exact ⟨by simp [Routes.pause_execution, h],
           by simp [Routes.set_breakpoints, h]⟩
  · have hn : (kvGet st.traces tid).isNone = false := by
      rcases hkv : kvGet st.traces tid with _ | v
      · rw [hkv] at h
        simp at h
      · rfl
    rcases hs : kvGet st.states tid with _ | s
    · simp only [Routes.pause_execution, hn, Bool.false_eq_true, if_false, hs,
        RedisService.save_state]
      refine ⟨_, rfl, _, kvGet_kvSet_self _ _ _, ?_, ?_, ?_⟩ <;> rfl
    · have htid : s.trace_id = tid := hwf _ (kvGet_mem hs)
      simp only [Routes.pause_execution, hn, Bool.false_eq_true, if_false, hs,
        RedisService.save_state]
      have hsave : kvGet (kvSet st.states s.trace_id
          { s with control := s.control.pause sid now, last_updated := now }) tid
          = some { s with control := s.control.pause sid now,
                          last_updated := now } := by
        rw [htid]
        exact kvGet_kvSet_self _ _ _
      exact ⟨_, rfl, _, hsave, rfl, rfl, rfl⟩
  · have hn : (kvGet st.traces tid).isNone = false := by
      rcases hkv : kvGet st.traces tid with _ | v
      · rw [hkv] at h
        simp at h
      · rfl
    rcases hs : kvGet st.states tid with _ | s
    · simp only [Routes.set_breakpoints, hn, Bool.false_eq_true, if_false, hs,
        RedisService.save_state]
      refine ⟨_, rfl, _, kvGet_kvSet_self _ _ _, ?_, ?_⟩ <;> rfl
    · have htid : s.trace_id = tid := hwf _ (kvGet_mem hs)
      simp only [Routes.set_breakpoints, hn, Bool.false_eq_true, if_false, hs,
        RedisService.save_state]
      have hsave :
          kvGet
            (kvSet st.states s.trace_id
              { s with
                  control :=
                    { s.control with
                        breakpoint_spans := spans
                        breakpoint_agents := agents }
                  last_updated := now })
            tid
          = some
              { s with
                  control :=
                    { s.control with
                        breakpoint_spans := spans
                        breakpoint_agents := agents }
                  last_updated := now } := by
        rw [htid]
        exact kvGet_kvSet_self _ _ _
      exact ⟨_, rfl, _, hsave, rfl, rfl⟩

/-- C5 witness: on the concrete store with one trace and no state, resume
signals 404, and pause implicitly creates a paused control. -/
theorem control_notfound_spec_witness :
    (Routes.resume_execution cexStore "t1" 9 = .error ⟨404, "State not found"⟩)
    ∧ (∃ r, Routes.pause_execution cexStore "t1" none 9 = .ok r
        ∧ ∃ s, kvGet r.1.states "t1" = some s ∧ s.control.status = .paused
          ∧ s.control.paused_span_id = none ∧ s.control.paused_at = some 9) := by
  have h := control_notfound_spec cexStore "t1" none 9 [] [] (by decide)
  exact ⟨(h.1 rfl).1, (h.2.2 (by decide)).1⟩

theorem dictGet_dictSet_self (d : PyDict) (k : String) (v : PyVal) :
    dictGet (dictSet d k v) k = some v := by
  induction d with
  | nil => simp [dictGet, dictSet]
  | cons p rest ih =>
      rcases p with ⟨pk, pv⟩
      by_cases h : pk = k
      · simp [dictGet, dictSet, h]
      · simpa [dictGet, dictSet, h] using ih

theorem dictSet_of_dictGet {d : PyDict} {k : String} {v : PyVal}
    (h : dictGet d k = some v) : dictSet d k v = d := by
  induction d with
  | nil => simp [dictGet] at h
  | cons p rest ih =>
      rcases p with ⟨pk, pv⟩
      by_cases hp : pk = k
      · subst hp
        simp only [dictGet, if_pos rfl] at h
        cases h
        simp [dictSet]
      · simp only [dictGet, if_neg hp] at h
        simp [dictSet, hp, ih h]

theorem setPath_nil_fst : ∀ (ks : List String) (v : PyVal), ks ≠ [] →
    (setPath [] ks v).1 = true
  | [], _, h => absurd rfl h
  | [_], _, _ => rfl
  | k :: k2 :: rest, v, _ => by
      simp only [setPath, dictGet]
      exact setPath_nil_fst (k2 :: rest) v (by simp)

theorem setPath_fst : ∀ (d : PyDict) (ks : List String) (v : PyVal), ks ≠ [] →
    (setPath d ks v).1 = !pathBlocked d ks
  | _, [], _, h => absurd rfl h
  | d, [_], v, _ => rfl
  | d, k :: k2 :: rest, v, _ => by
      rcases hdg : dictGet d k with _ | val
      · simp only [setPath, pathBlocked, hdg]
        simpa using setPath_nil_fst (k2 :: rest) v (by simp)
      · rcases val <;> simp only [setPath, pathBlocked, hdg] <;> try rfl
        exact setPath_fst _ (k2 :: rest) v (by simp)

theorem setPath_failure_id : ∀ (d : PyDict) (ks : List String) (v : PyVal),
    (setPath d ks v).1 = false → (setPath d ks v).2 = d
  | _, [], _, _ => rfl
  | _, [_], _, h => by simp [setPath] at h
  | d, k :: k2 :: rest, v, h => by
      rcases hdg : dictGet d k with _ | val
      · rw [setPath_fst d (k :: k2 :: rest) v (by simp)] at h
        simp only [pathBlocked, hdg] at h
        simp at h
      · rcases val <;> simp only [setPath, hdg] <;> try rfl
        simp only [setPath, hdg] at h
        rw [setPath_failure_id _ (k2 :: rest) v h]
        exact dictSet_of_dictGet hdg

theorem setPath_getPath : ∀ (d : PyDict) (ks : List String) (v : PyVal),
    (setPath d ks v).1 = true → getPath (setPath d ks v).2 ks = some v
  | _, [], _, h => by simp [setPath] at h
  | d, [last], v, _ => by
      simp [setPath, getPath, dictGet_dictSet_self]
  | d, k :: k2 :: rest, v, h => by
      rcases hdg : dictGet d k with _ | val
      · simp only [setPath, hdg] at h ⊢
        simp only [getPath, dictGet_dictSet_self]
        exact setPath_getPath [] (k2 :: rest) v h
      · rcases val <;> simp only [setPath, hdg] at h ⊢ <;> try simp at h
        simp only [getPath, dictGet_dictSet_self]
        exact setPath_getPath _ (k2 :: rest) v h

/-- The container selected by the first path segment of `modify_state`. -/
def containerOf (st : AgentState) (name : String) : PyDict :=
  if name = "memory" then st.memory
  else if name = "context" then st.context
  else if name = "variables" then st.«variables»
  else []

/-- C6: `modify_state` fails exactly when the dotted path has fewer than two
segments, or its first segment is not one of memory/context/variables, or
some non-terminal segment already holds a non-map value; on success the
terminal key of the walked path holds the given value (missing intermediate
keys having been created as empty maps). -/
theorem modify_state_spec (st : AgentState) (path : String) (v : PyVal)
    (now : Nat) :
    ((st.modify_state path v now).1 = false ↔
      (splitDot path).length < 2
      ∨ (splitDot path).headD "" ∉ (["memory", "context", "variables"] : List String)
      ∨ pathBlocked (containerOf st ((splitDot path).headD ""))
          (splitDot path).tail = true)
    ∧ ((st.modify_state path v now).1 = true →
      getPath (containerOf (st.modify_state path v now).2
          ((splitDot path).headD "")) (splitDot path).tail = some v) := by
  by_cases hlen : (splitDot path).length < 2
  · constructor
    · simp [AgentState.modify_state, hlen]
    · intro h
      simp [AgentState.modify_state, hlen] at h
  · have htail : (splitDot path).tail ≠ [] := by
      intro he
      have hl := congrArg List.length he
      simp only [List.length_tail, List.length_nil] at hl
      omega
    simp only [List.headD_eq_head?]
    by_cases hm : (splitDot path).head?.getD "" = "memory"
    · constructor
      · rw [show (st.modify_state path v now).1
            = (setPath st.memory (splitDot path).tail v).1 by
              simp [AgentState.modify_state, hlen, hm]]
        rw [setPath_fst _ _ _ htail]
        simp [hlen, hm, containerOf]
      · intro h
        have h1 : (setPath st.memory (splitDot path).tail v).1 = true := by
          rw [show (st.modify_state path v now).1
              = (setPath st.memory (splitDot path).tail v).1 by
                simp [AgentState.modify_state, hlen, hm]] at h
          exact h
        rw [show (st.modify_state path v now).2
            = { st with memory := (setPath st.memory (splitDot path).tail v).2,
                        last_updated := now } by
              simp [AgentState.modify_state, hlen, hm, h1]]
        simpa [containerOf, hm] using setPath_getPath _ _ _ h1
    · by_cases hc : (splitDot path).head?.getD "" = "context"
      · constructor
        · rw [show (st.modify_state path v now).1
              = (setPath st.context (splitDot path).tail v).1 by
                simp [AgentState.modify_state, hlen, hm, hc]]
          rw [setPath_fst _ _ _ htail]
          simp [hlen, hm, hc, containerOf]
        · intro h
          have h1 : (setPath st.context (splitDot path).tail v).1 = true := by
            rw [show (st.modify_state path v now).1
                = (setPath st.context (splitDot path).tail v).1 by
                  simp [AgentState.modify_state, hlen, hm, hc]] at h
            exact h
          rw [show (st.modify_state path v now).2
              = { st with context := (setPath st.context (splitDot path).tail v).2,
                          last_updated := now } by
                simp [AgentState.modify_state, hlen, hm, hc, h1]]
          simpa [containerOf, hm, hc] using setPath_getPath _ _ _ h1
      · by_cases hv : (splitDot path).head?.getD "" = "variables"
        · constructor
          · rw [show (st.modify_state path v now).1
                = (setPath st.«variables» (splitDot path).tail v).1 by
                  simp [AgentState.modify_state, hlen, hm, hc, hv]]
            rw [setPath_fst _ _ _ htail]
            simp [hlen, hm, hc, hv, containerOf]
          · intro h
            have h1 : (setPath st.«variables» (splitDot path).tail v).1 = true := by
              rw [show (st.modify_state path v now).1
                  = (setPath st.«variables» (splitDot path).tail v).1 by
                    simp [AgentState.modify_state, hlen, hm, hc, hv]] at h
              exact h
            rw [show (st.modify_state path v now).2
                = { st with
                      «variables» := (setPath st.«variables» (splitDot path).tail v).2,
                      last_updated := now } by
                  simp [AgentState.modify_state, hlen, hm, hc, hv, h1]]
            simpa [containerOf, hm, hc, hv] using setPath_getPath _ _ _ h1
        · constructor
          · simp [AgentState.modify_state, hlen, hm, hc, hv]
          · intro h
            simp [AgentState.modify_state, hlen, hm, hc, hv] at h

/-- The empty agent state used in the C6 and C10 witnesses. -/
def cexState : AgentState := { trace_id := "t", control := { trace_id := "t" } }

/-- C6 witness: on an empty state, `modify_state "memory.user.name"` succeeds
and stores the value under the created nested keys. -/
theorem modify_state_spec_witness :
    (cexState.modify_state "memory.user.name" (.vstr "x") 7).1 = true
    ∧ getPath (containerOf (cexState.modify_state "memory.user.name"
        (.vstr "x") 7).2 ((splitDot "memory.user.name").headD ""))
        (splitDot "memory.user.name").tail = some (.vstr "x") :=
  ⟨by decide,
   (modify_state_spec cexState "memory.user.name" (.vstr "x") 7).2 (by decide)⟩

/-- C10: `modify_state` is atomic on failure — every failing call returns
the agent state exactly as it was, containers and `last_updated` included;
in particular no intermediate dicts created during the walk survive. -/
theorem modify_state_failure_id (st : AgentState) (path : String) (v : PyVal)
    (now : Nat) (h : (st.modify_state path v now).1 = false) :
    (st.modify_state path v now).2 = st := by
  simp only [AgentState.modify_state, List.headD_eq_head?] at h ⊢
  by_cases hlen : (splitDot path).length < 2
  · simp [hlen]
  · by_cases hm : (splitDot path).head?.getD "" = "memory"
    · simp only [hlen, if_false, hm, if_pos rfl] at h ⊢
      have hh : (setPath st.memory (splitDot path).tail v).1 = false := by
        simpa using h
      rw [setPath_failure_id _ _ _ hh, hh]
      rfl
    · by_cases hc : (splitDot path).head?.getD "" = "context"
      · simp only [hlen, if_false, hm, hc, if_pos rfl, if_neg hm] at h ⊢
        have hh : (setPath st.context (splitDot path).tail v).1 = false := by
          simpa using h
        rw [setPath_failure_id _ _ _ hh, hh]
        rfl
      · by_cases hv : (splitDot path).head?.getD "" = "variables"
        · simp only [hlen, if_false, hm, hc, hv, if_pos rfl, if_neg hm,
            if_neg hc] at h ⊢
          have hh : (setPath st.«variables» (splitDot path).tail v).1 = false := by
            simpa using h
          rw [setPath_failure_id _ _ _ hh, hh]
          rfl
        · simp [hlen, hm, hc, hv]

theorem treeContainsList_eq_any (l : List SpanTree) (x : String) :
    treeContainsList l x = l.any fun c => treeContains c x := by
  induction l with
  | nil => rfl
  | cons c cs ih => simp [treeContainsList, ih]

theorem findSpanLast_eq {spans : List Span} {sid : String} {s : Span}
    (h : findSpanLast spans sid = some s) : s ∈ spans ∧ s.span_id = sid := by
  unfold findSpanLast at h
  have hm := List.mem_of_mem_getLast? h
  have hf := List.mem_filter.mp hm
  exact ⟨hf.1, by simpa using hf.2⟩

theorem childIds_spec {t : Trace} {pid x : String} (h : x ∈ childIds t pid) :
    ∃ s1 ∈ t.spans, s1.span_id = x ∧ s1.parent_span_id = some pid
      ∧ (t.spans.any fun s2 => s2.span_id = pid) = true := by
  unfold childIds at h
  rcases List.mem_map.mp h with ⟨s1, hmem, hx⟩
  have hf := List.mem_filter.mp hmem
  rcases hp : s1.parent_span_id with _ | p
  · rw [hp] at hf
    simp at hf
  · rw [hp] at hf
    have hcond := hf.2
    simp only [Bool.and_eq_true, decide_eq_true_eq] at hcond
    exact ⟨s1, hf.1, hx, by rw [hp, hcond.2], by rw [← hcond.2]; exact hcond.1.2⟩

theorem treeContains_buildTree (t : Trace) (x : String) : ∀ (fuel : Nat)
    (sid : String), treeContains (buildTree t fuel sid) x = true →
    x = sid ∨ ∃ pid, x ∈ childIds t pid := by
  intro fuel
  induction fuel with
  | zero =>
      intro sid h
      simp [buildTree, treeContains] at h
  | succ n ih =>
      intro sid h
      rcases hf : findSpanLast t.spans sid with _ | s
      · simp only [buildTree, hf, treeContains] at h
        exact absurd h (by decide)
      · simp only [buildTree, hf, treeContains, Bool.or_eq_true,
          decide_eq_true_eq] at h
        rcases h with h | h
        · left
          rw [← h, (findSpanLast_eq hf).2]
        · rw [treeContainsList_eq_any, List.any_eq_true] at h
          rcases h with ⟨c, hcmem, hcx⟩
          rcases List.mem_map.mp hcmem with ⟨cid, hcid, hceq⟩
          rw [← hceq] at hcx
          rcases ih cid hcx with h1 | h1
          · right
            exact ⟨sid, by rw [h1]; exact hcid⟩
          · right
            exact h1

/-- Decidable form of the root invariant maintained by `Trace.add_span`:
when a root span id is recorded, some span in the list carries that id and
has no parent. -/
def rootInvB (t : Trace) : Bool :=
  match t.root_span_id with
  | none => true
  | some r => t.spans.any fun s0 =>
      decide (s0.span_id = r) && decide (s0.parent_span_id = none)

/-- The concrete chain trace of the specification example:
A(parent=null), B(parent=A), C(parent=B), ingested through `add_span`. -/
def spanA : Span :=
  { span_id := "A", trace_id := "T", name := "a", kind := .agent, start_time := 0 }

def spanB : Span :=
  { span_id := "B", parent_span_id := some "A", trace_id := "T", name := "b",
    kind := .tool, start_time := 1 }

def spanC : Span :=
  { span_id := "C", parent_span_id := some "B", trace_id := "T", name := "c",
    kind := .llm, start_time := 2 }

def chainTrace : Trace :=
  applySpanOps (mkTrace "T" "chain" 0) [.add spanA, .add spanB, .add spanC]

/-- A span whose declared parent does not exist in its trace. -/
def spanX : Span :=
  { span_id := "X", parent_span_id := some "ghost", trace_id := "T", name := "x",
    kind := .tool, start_time := 3 }

/-- A trace containing a root span and a span with a nonexistent parent. -/
def ghostTrace : Trace :=
  applySpanOps (mkTrace "T" "g" 0) [.add spanA, .add spanX]

/-- C8: `get_span_tree` returns the empty structure when no root span is
known; on the chain A(parent=null), B(parent=A), C(parent=B) it yields the
single chain of depth 3 rooted at A; and every span whose declared parent
id matches no span of the trace is absent from the produced tree (while of
course remaining in `spans`), with no error raised — the builder is total. -/
theorem span_tree_spec :
    (∀ t : Trace, t.root_span_id = none → t.get_span_tree = .empty)
    ∧ (chainTrace.get_span_tree = .node spanA [.node spanB [.node spanC []]])
    ∧ (∀ (t : Trace) (s : Span) (p : String),
        s ∈ t.spans → s.parent_span_id = some p →
        (∀ s2 ∈ t.spans, s2.span_id ≠ p) →
        (t.spans.map Span.span_id).Nodup →
        rootInvB t = true →
        s ∈ t.spans ∧ treeContains t.get_span_tree s.span_id = false) := by
  refine ⟨fun t h => by simp [Trace.get_span_tree, h], rfl, ?_⟩
  intro t s p hmem hp hnop hnodup hroot
  refine ⟨hmem, ?_⟩
  by_contra hc
  have hc2 : treeContains t.get_span_tree s.span_id = true := by
    rw [← Bool.not_eq_false]
    exact hc
  unfold Trace.get_span_tree at hc2
  rcases hr : t.root_span_id with _ | r
  · rw [hr] at hc2
    simp [treeContains] at hc2
  · rw [hr] at hc2
    change treeContains (if r = "" then SpanTree.empty
      else buildTree t (t.spans.length + 1) r) s.span_id = true at hc2
    by_cases hre : r = ""
    · rw [if_pos hre] at hc2
      simp [treeContains] at hc2
    · rw [if_neg hre] at hc2
      rcases treeContains_buildTree t s.span_id _ r hc2 with he | ⟨pid, hin⟩
      · unfold rootInvB at hroot
        rw [hr] at hroot
        rw [List.any_eq_true] at hroot
        rcases hroot with ⟨s0, hs0mem, hs0⟩
        simp only [Bool.and_eq_true, decide_eq_true_eq] at hs0
        have : s0 = s :=
          List.inj_on_of_nodup_map hnodup hs0mem hmem (by rw [hs0.1, ← he])
        rw [this] at hs0
        rw [hs0.2] at hp
        cases hp
      · rcases childIds_spec hin with ⟨s1, hs1mem, hs1id, hs1p, hs1any⟩
        have : s1 = s := List.inj_on_of_nodup_map hnodup hs1mem hmem hs1id
        rw [this] at hs1p
        rw [hs1p] at hp
        cases hp
        rw [List.any_eq_true] at hs1any
        rcases hs1any with ⟨s2, hs2mem, hs2⟩
        exact hnop s2 hs2mem (by simpa using hs2)

/-- C8 witness: in the concrete trace holding root A and span X whose
declared parent `ghost` matches nothing, X stays in `spans` and is absent
from the built tree. -/
theorem span_tree_spec_witness :
    spanX ∈ ghostTrace.spans
    ∧ treeContains ghostTrace.get_span_tree spanX.span_id = false :=
  span_tree_spec.2.2 ghostTrace spanX "ghost" (by decide) (by decide)
    (by decide) (by decide) (by decide)

theorem disconnect_not_mem_active {m : ConnectionManager} {c : Nat}
    (h : m.active_connections.Nodup) :
    c ∉ (m.disconnect c).active_connections :=
  h.not_mem_erase

theorem disconnect_not_mem_subs {m : ConnectionManager} {c : Nat}
    (h : ∀ p ∈ m.trace_subscriptions, p.2.Nodup) :
    ∀ p ∈ (m.disconnect c).trace_subscriptions, c ∉ p.2 := by
  intro p hp
  unfold ConnectionManager.disconnect at hp
  have hp2 := List.mem_filter.mp hp
  rcases List.mem_map.mp hp2.1 with ⟨q, hq, hpq⟩
  rw [← hpq]
  exact (h q hq).not_mem_erase

theorem disconnect_keeps_notmem_active {m : ConnectionManager} {c d : Nat}
    (h : c ∉ m.active_connections) :
    c ∉ (m.disconnect d).active_connections :=
  fun hmem => h ((List.erase_sublist d m.active_connections).subset hmem)

theorem disconnect_keeps_notmem_subs {m : ConnectionManager} {c d : Nat}
    (h : ∀ p ∈ m.trace_subscriptions, c ∉ p.2) :
    ∀ p ∈ (m.disconnect d).trace_subscriptions, c ∉ p.2 := by
  intro p hp
  unfold ConnectionManager.disconnect at hp
  have hp2 := List.mem_filter.mp hp
  rcases List.mem_map.mp hp2.1 with ⟨q, hq, hpq⟩
  rw [← hpq]
  exact fun hmem => h q hq ((List.erase_sublist d q.2).subset hmem)

theorem disconnect_keeps_nodup {m : ConnectionManager} {d : Nat}
    (ha : m.active_connections.Nodup)
    (hs : ∀ p ∈ m.trace_subscriptions, p.2.Nodup) :
    (m.disconnect d).active_connections.Nodup
    ∧ ∀ p ∈ (m.disconnect d).trace_subscriptions, p.2.Nodup := by
  refine ⟨ha.erase d, ?_⟩
  intro p hp
  unfold ConnectionManager.disconnect at hp
  have hp2 := List.mem_filter.mp hp
  rcases List.mem_map.mp hp2.1 with ⟨q, hq, hpq⟩
  rw [← hpq]
  exact (hs q hq).erase d

theorem foldl_disconnect_keeps_notmem (ds : List Nat) :
    ∀ (m : ConnectionManager) (c : Nat),
    c ∉ m.active_connections → (∀ p ∈ m.trace_subscriptions, c ∉ p.2) →
    c ∉ (ds.foldl ConnectionManager.disconnect m).active_connections
    ∧ ∀ p ∈ (ds.foldl ConnectionManager.disconnect m).trace_subscriptions,
        c ∉ p.2 := by
  induction ds with
  | nil => exact fun m c ha hs => ⟨ha, hs⟩
  | cons d rest ih =>
      intro m c ha hs
      exact ih (m.disconnect d) c (disconnect_keeps_notmem_active ha)
        (disconnect_keeps_notmem_subs hs)

theorem foldl_disconnect_removes (ds : List Nat) :
    ∀ (m : ConnectionManager) (c : Nat),
    m.active_connections.Nodup → (∀ p ∈ m.trace_subscriptions, p.2.Nodup) →
    c ∈ ds →
    c ∉ (ds.foldl ConnectionManager.disconnect m).active_connections
    ∧ ∀ p ∈ (ds.foldl ConnectionManager.disconnect m).trace_subscriptions,
        c ∉ p.2 := by
  induction ds with
  | nil =>
      intro m c _ _ hc
      cases hc
  | cons d rest ih =>
      intro m c ha hs hc
      by_cases hcd : c = d
      · subst hcd
        exact foldl_disconnect_keeps_notmem rest (m.disconnect c) c
          (disconnect_not_mem_active ha) (disconnect_not_mem_subs hs)
      · have hrest : c ∈ rest := by
          rcases List.mem_cons.mp hc with h | h
          · exact absurd h hcd
          · exact h
        have hkeep := disconnect_keeps_nodup (d := d) ha hs
        exact ih (m.disconnect d) c hkeep.1 hkeep.2 hrest

/-- C9: a send failure during `broadcast` or `broadcast_to_trace` removes
exactly that connection from the active list and from every trace
subscription list, without aborting delivery to the remaining connections
(every connection whose send succeeds is delivered to) and without failing
the operation; broadcasting to a trace with zero subscribers is a no-op.
The hypotheses record that connections are distinct objects, which holds
for every manager reachable through `connect`/`subscribe_to_trace` since
each accepted WebSocket is a fresh object and subscription adds are
membership-guarded. -/
theorem broadcast_self_healing (m : ConnectionManager) (ok : Nat → Bool)
    (c : Nat) (tid : String)
    (ha : m.active_connections.Nodup)
    (hs : ∀ p ∈ m.trace_subscriptions, p.2.Nodup) :
    ((m.broadcast ok).2 = m.active_connections.filter ok)
    ∧ (c ∈ m.active_connections → ok c = false →
        c ∉ (m.broadcast ok).1.active_connections
        ∧ ∀ p ∈ (m.broadcast ok).1.trace_subscriptions, c ∉ p.2)
    ∧ ((m.broadcast_to_trace tid ok).2
        = ((kvGet m.trace_subscriptions tid).getD []).filter ok)
    ∧ (c ∈ (kvGet m.trace_subscriptions tid).getD [] → ok c = false →
        c ∉ (m.broadcast_to_trace tid ok).1.active_connections
        ∧ ∀ p ∈ (m.broadcast_to_trace tid ok).1.trace_subscriptions, c ∉ p.2)
    ∧ ((kvGet m.trace_subscriptions tid).getD [] = [] →
        m.broadcast_to_trace tid ok = (m, [])) := by
  refine ⟨rfl, fun hc hok => ?_, ?_, fun hc hok => ?_, fun hempty => ?_⟩
  · exact foldl_disconnect_removes _ m c ha hs
      (List.mem_filter.mpr ⟨hc, by rw [hok]; rfl⟩)
  · rcases hk : kvGet m.trace_subscriptions tid with _ | l
    · simp [ConnectionManager.broadcast_to_trace, hk]
    · simp [ConnectionManager.broadcast_to_trace, hk]
  · rcases hk : kvGet m.trace_subscriptions tid with _ | l
    · rw [hk] at hc
      cases hc
    · rw [hk] at hc
      have hc2 : c ∈ l := hc
      simp only [ConnectionManager.broadcast_to_trace, hk]
      exact foldl_disconnect_removes _ m c ha hs
        (List.mem_filter.mpr ⟨hc2, by rw [hok]; rfl⟩)
  · rcases hk : kvGet m.trace_subscriptions tid with _ | l
    · simp [ConnectionManager.broadcast_to_trace, hk]
    · rw [hk] at hempty
      have : l = [] := hempty
      subst this
      simp [ConnectionManager.broadcast_to_trace, hk]

/-- The concrete manager of the C9 witness: connections 1 and 2, with 1
subscribed to trace t1. -/
def cexManager : ConnectionManager :=
  ConnectionManager.subscribe_to_trace
    (ConnectionManager.connect (ConnectionManager.connect {} 1) 2) 1 "t1"

/-- C9 witness: with connection 1 failing its send, broadcast delivers to
connection 2 and removes connection 1 from the active list and from the t1
subscriber list; broadcasting to the subscriber-less trace t2 is a no-op. -/
theorem broadcast_self_healing_witness :
    ((cexManager.broadcast fun c => decide (c = 2)).2 =
      cexManager.active_connections.filter fun c => decide (c = 2))
    ∧ ((1 : Nat) ∉ (cexManager.broadcast fun c => decide (c = 2)).1.active_connections
        ∧ ∀ p ∈ (cexManager.broadcast
            fun c => decide (c = 2)).1.trace_subscriptions, (1 : Nat) ∉ p.2)
    ∧ (cexManager.broadcast_to_trace "t2" (fun c => decide (c = 2))
        = (cexManager, [])) := by
  have h := broadcast_self_healing cexManager (fun c => decide (c = 2)) 1 "t2"
    (by decide) (by decide)
  exact ⟨h.1, h.2.1 (by decide) (by decide), h.2.2.2.2 (by decide)⟩

/-- The initial heap-model state of the C3 scenario:
`memory = {"a": 1}`, empty context and variables. -/
def cexStateH : AgentStateH := AgentStateH.init "t" [("a", .vint 1)] [] []

/-- C3: the snapshot taken by `take_snapshot` is a deep copy — mutating the
live memory afterwards leaves its stored `state_data` intact — but
`restore_snapshot` assigns the stored containers to the live state without
copying, so a `modify_state` performed after restoring that snapshot
mutates the dict object the snapshot stores: the claimed immutability of
`state_data` is violated on this concrete run. -/
theorem restore_then_modify_mutates_snapshot :
    (snapshotMemory (cexStateH.take_snapshot "snap1" "s1" none).2
        (cexStateH.take_snapshot "snap1" "s1" none).1
      = some (.vdict [("a", .vint 1)]))
    ∧ (snapshotMemory
        ((cexStateH.take_snapshot "snap1" "s1" none).2.modify_state
          "memory.a" (.vint 9) 7).2
        (cexStateH.take_snapshot "snap1" "s1" none).1
      = some (.vdict [("a", .vint 1)]))
    ∧ (((cexStateH.take_snapshot "snap1" "s1" none).2.restore_snapshot
        "snap1" 5).1 = true)
    ∧ ((((cexStateH.take_snapshot "snap1" "s1" none).2.restore_snapshot
        "snap1" 5).2.modify_state "memory.a" (.vint 2) 6).1 = true)
    ∧ (snapshotMemory
        ((((cexStateH.take_snapshot "snap1" "s1" none).2.restore_snapshot
          "snap1" 5).2.modify_state "memory.a" (.vint 2) 6).2)
        (cexStateH.take_snapshot "snap1" "s1" none).1
      = some (.vdict [("a", .vint 2)])) := by
  exact ⟨rfl, rfl, rfl, rfl, rfl⟩

theorem add_span_totals {t : Trace} (s : Span)
    (h1 : t.total_tokens = (t.spans.map Span.total_tokens).sum)
    (h2 : t.total_cost_usd = (t.spans.map Span.cost_usd).sum) :
    (t.add_span s).total_tokens = ((t.add_span s).spans.map Span.total_tokens).sum
    ∧ (t.add_span s).total_cost_usd
        = ((t.add_span s).spans.map Span.cost_usd).sum := by
  cases hk : s.kind <;>
    simp [Trace.add_span, hk, h1, h2, List.sum_append, apply_ite]

theorem recalculate_totals (t : Trace) :
    t.recalculate_aggregates.total_tokens
      = (t.recalculate_aggregates.spans.map Span.total_tokens).sum
    ∧ t.recalculate_aggregates.total_cost_usd
      = (t.recalculate_aggregates.spans.map Span.cost_usd).sum :=
  ⟨rfl, rfl⟩

theorem applySpanOp_totals (t : Trace) (op : SpanOp)
    (h1 : t.total_tokens = (t.spans.map Span.total_tokens).sum)
    (h2 : t.total_cost_usd = (t.spans.map Span.cost_usd).sum) :
    (applySpanOp t op).total_tokens
      = ((applySpanOp t op).spans.map Span.total_tokens).sum
    ∧ (applySpanOp t op).total_cost_usd
      = ((applySpanOp t op).spans.map Span.cost_usd).sum := by
  cases op with
  | add s => exact add_span_totals s h1 h2
  | replace s =>
      rcases hu : updateSpanInTrace t s with _ | t2
      · simp only [applySpanOp, hu]
        exact ⟨h1, h2⟩
      · simp only [applySpanOp, hu]
        rcases hr : replaceSpanFirst t.spans s with _ | l
        · simp [updateSpanInTrace, hr] at hu
        · simp only [updateSpanInTrace, hr, Option.map_some] at hu
          cases hu
          exact recalculate_totals _

theorem applySpanOps_totals (ops : List SpanOp) : ∀ (t : Trace),
    t.total_tokens = (t.spans.map Span.total_tokens).sum →
    t.total_cost_usd = (t.spans.map Span.cost_usd).sum →
    (applySpanOps t ops).total_tokens
      = ((applySpanOps t ops).spans.map Span.total_tokens).sum
    ∧ (applySpanOps t ops).total_cost_usd
      = ((applySpanOps t ops).spans.map Span.cost_usd).sum := by
  induction ops with
  | nil => exact fun t h1 h2 => ⟨h1, h2⟩
  | cons op rest ih =>
      intro t h1 h2
      have h := applySpanOp_totals t op h1 h2
      exact ih (applySpanOp t op) h.1 h.2

/-- C1: starting from a freshly created trace, after every sequence of
`add_span` and `update_span` (replace) calls the stored totals equal the
sums over the current span list; moreover the replace path recomputes the
totals from the whole span list (via `recalculate_aggregates`), so its
result satisfies the sum equations for every input trace, drifted or not,
rather than applying an incremental delta to the previous totals. -/
theorem trace_totals_invariant (id name : String) (start : Nat)
    (ops : List SpanOp) :
    ((applySpanOps (mkTrace id name start) ops).total_tokens
      = ((applySpanOps (mkTrace id name start) ops).spans.map
          Span.total_tokens).sum
    ∧ (applySpanOps (mkTrace id name start) ops).total_cost_usd
      = ((applySpanOps (mkTrace id name start) ops).spans.map
          Span.cost_usd).sum)
    ∧ (∀ (t : Trace) (sp : Span), (updateSpanInTrace t sp).elim True fun t2 =>
        t2.total_tokens = (t2.spans.map Span.total_tokens).sum
        ∧ t2.total_cost_usd = (t2.spans.map Span.cost_usd).sum) := by
  constructor
  · exact applySpanOps_totals ops (mkTrace id name start) rfl rfl
  · intro t sp
    rcases hr : replaceSpanFirst t.spans sp with _ | l
    · simp [updateSpanInTrace, hr]
    · simp only [updateSpanInTrace, hr, Option.map_some, Option.elim]
      exact recalculate_totals _

/-- C10 witness: a walk blocked by a pre-existing non-map value fails and
leaves the state untouched. -/
theorem modify_state_failure_id_witness :
    (({ cexState with memory := [("a", .vint 1)] } : AgentState).modify_state
        "memory.a.b" (.vint 2) 9).1 = false
    ∧ (({ cexState with memory := [("a", .vint 1)] } : AgentState).modify_state
        "memory.a.b" (.vint 2) 9).2
      = { cexState with memory := [("a", .vint 1)] } :=
  ⟨by decide,
   modify_state_failure_id { cexState with memory := [("a", .vint 1)] }
     "memory.a.b" (.vint 2) 9 (by decide)⟩

end Lighthouse
